import Mathlib

/-!
Verification development for the DependentChoice dependency-mapping core.

The embedding covers:
* the permissive Dependency Resolver
  (src: DependencyMappingService — initialize / getDependentValues / isAllowed),
  both over well-typed configurations and over raw parsed JSON values (the
  permissive loader stores whatever JSON.parse produced, so the untyped model
  is needed to study lookups over non-conforming configurations);
* the strict Configuration Validator (src: tools/ConfigurationValidator.ts);
* the filtering and reconciliation logic of the React component
  (src: components/DependentChoice.tsx — the clear effect, the auto-remove
  effect, and the filteredOptions memo).

Modelling conventions:
* JSON numbers are modelled as Int: every value the claims quantify over is an
  integer choice value, and JSON.parse never produces NaN, so the
  Number.isNaN checks in the source are vacuous on parsed input.
* JS strings holding selection keys are canonical decimal renderings of
  integers (the component only ever stores `value.toString()` of numeric
  option values), so single-select state is modelled as Option Int
  (none for the empty string "") and multi-select state as List Int.
* JSON.parse itself is a host primitive; functions that consume raw text take
  the parse outcome as an explicit argument (an Except or a dedicated
  inductive), which is the composition point with the host parser.
-/

/-- Parsed JSON values, as produced by a host JSON.parse call.
Objects are association lists of fields; lookups use the first matching key. -/
inductive Json where
  | null : Json
  | bool (b : Bool) : Json
  | num (n : Int) : Json
  | str (s : String) : Json
  | arr (elems : List Json) : Json
  | obj (fields : List (String × Json)) : Json

/-- JS truthiness of a parsed JSON value (null, false, 0 and "" are falsy;
objects and arrays are always truthy). -/
def jsFalsy : Json → Bool
  | Json.null => true
  | Json.bool b => !b
  | Json.num n => n == 0
  | Json.str s => s == ""
  | Json.arr _ => false
  | Json.obj _ => false

/-- Property access `v[key]` on a non-null JS value: objects yield the field
value when present, everything else (primitives, arrays for the keys used
here) yields undefined, modelled as none. -/
def jsGetField (v : Json) (key : String) : Option Json :=
  match v with
  | Json.obj fields => (fields.find? (fun f => f.1 == key)).map (fun f => f.2)
  | _ => none

/-- One parent-to-dependent mapping
(src: interface IDependencyMapping in DependencyMappingService). -/
structure DependencyMapping where
  parentValue : Int
  dependentValues : List Int
deriving DecidableEq, Repr

/-- The loaded mapping table
(src: interface IDependencyConfiguration). The type does not force
parentValue uniqueness: the permissive loader never rejects duplicates. -/
structure DependencyConfiguration where
  mappings : List DependencyMapping
deriving DecidableEq, Repr

/-- DependencyMappingService.getDependentValues over a well-typed resolver
state (src: DependencyMappingService.getDependentValues, lines 73-83):
returns null (none) when no configuration is loaded, the parent value is
null, or it is the sentinel -1; otherwise finds the first mapping whose
parentValue strictly equals the argument. -/
def getDependentValues (config : Option DependencyConfiguration)
    (parentValue : Option Int) : Option (List Int) :=
  match config, parentValue with
  | none, _ => none
  | some _, none => none
  | some cfg, some p =>
    if p = -1 then none
    else
      match cfg.mappings.find? (fun m => m.parentValue == p) with
      | some m => some m.dependentValues
      | none => none

/-- DependencyMappingService.isAllowed over a well-typed resolver state
(src: lines 98-107): true when no restriction applies or the dependent value
is contained in the allowed list. -/
def isAllowed (config : Option DependencyConfiguration)
    (parentValue : Option Int) (dependentValue : Int) : Bool :=
  match getDependentValues config parentValue with
  | none => true
  | some allowedValues => allowedValues.contains dependentValue

/-- Raw configuration text as the permissive loader observes it: falsy input
(null or the empty string), text on which JSON.parse throws, or text parsing
to a JSON value. -/
inductive RawConfigText where
  | falsy : RawConfigText
  | invalidJson : RawConfigText
  | parsedAs (v : Json) : RawConfigText

/-- DependencyMappingService.initialize (src: lines 40-59), state-passing
form; the previous state is discarded wholesale. Falsy input and parse
failures set the configuration to null. When JSON.parse yields null, the
success-path console.log dereferences null.mappings inside the try block, the
TypeError is caught, and the configuration is reset to null; every other
parsed value is stored unvalidated. -/
def initMappingService (_prev : Option Json) (raw : RawConfigText) : Option Json :=
  match raw with
  | RawConfigText.falsy => none
  | RawConfigText.invalidJson => none
  | RawConfigText.parsedAs Json.null => none
  | RawConfigText.parsedAs v => some v

/-- What getDependentValues can hand back over an untyped state: an explicit
JS null (no restriction), undefined (a found mapping object without a
dependentValues property), or the raw JSON value of that property. -/
inductive JsRet where
  | jsNull : JsRet
  | undef : JsRet
  | val (j : Json) : JsRet

/-- The `mappings.find(m => m.parentValue === parentValue)` callback loop over
untyped elements: reading parentValue of a null element throws; on any other
element the strict equality holds only when the property is the number p. -/
def findMappingJs (ms : List Json) (p : Int) : Except String (Option Json) :=
  match ms with
  | [] => Except.ok none
  | Json.null :: _ =>
      Except.error "TypeError: Cannot read properties of null (reading parentValue)"
  | m :: rest =>
    if (match jsGetField m "parentValue" with
        | some (Json.num n) => n == p
        | _ => false)
    then Except.ok (some m)
    else findMappingJs rest p

/-- DependencyMappingService.getDependentValues over the raw stored JSON
value (src: lines 73-83). The source guards only against a falsy
configuration; a truthy non-conforming value reaches
`this.configuration.mappings.find`, which throws when mappings is missing or
is not an array. A found mapping object is truthy, so its dependentValues
property is returned as-is (possibly undefined or non-array). -/
def getDependentValuesJs (state : Option Json) (parentValue : Option Int) :
    Except String JsRet :=
  match state with
  | none => Except.ok JsRet.jsNull
  | some cfg =>
    if jsFalsy cfg then Except.ok JsRet.jsNull
    else
      match parentValue with
      | none => Except.ok JsRet.jsNull
      | some p =>
        if p = -1 then Except.ok JsRet.jsNull
        else
          match jsGetField cfg "mappings" with
          | none =>
              Except.error "TypeError: Cannot read properties of undefined (reading find)"
          | some (Json.arr ms) =>
            match findMappingJs ms p with
            | Except.error e => Except.error e
            | Except.ok none => Except.ok JsRet.jsNull
            | Except.ok (some m) =>
              match jsGetField m "dependentValues" with
              | some j => Except.ok (JsRet.val j)
              | none => Except.ok JsRet.undef
          | some _ =>
              Except.error "TypeError: this.configuration.mappings.find is not a function"

/-- The parentChoiceValue prop shape: null or undefined, a single number, or
an array of numbers (src: IDependentChoiceAppProps.parentChoiceValue). -/
inductive ParentValue where
  | nullish : ParentValue
  | single (n : Int) : ParentValue
  | multi (ns : List Int) : ParentValue
deriving DecidableEq, Repr

/-- The hasNoParentValue check of the component (src: DependentChoice.tsx
lines 30-34): strict comparisons against null, undefined and -1, plus the
empty-array case. Note that a single value of 0 is treated as a real
selection here. -/
def hasNoParentValue : ParentValue → Bool
  | ParentValue.nullish => true
  | ParentValue.single n => n == -1
  | ParentValue.multi ns => ns.isEmpty

/-- JS truthiness of the parentChoiceValue prop, as tested by
`!props.parentChoiceValue` in the auto-remove effect (src: line 95): null
and undefined are falsy, the number 0 is falsy, arrays are always truthy. -/
def parentTruthy : ParentValue → Bool
  | ParentValue.nullish => false
  | ParentValue.single n => !(n == 0)
  | ParentValue.multi _ => true

/-- The parentValues local of both the auto-remove effect and the
filteredOptions memo (src: lines 100-102 and 181-183): wrap a single value
into a one-element array. -/
def parentValuesList : ParentValue → List Int
  | ParentValue.nullish => []
  | ParentValue.single n => [n]
  | ParentValue.multi ns => ns

/-- The component selection state: selectedKey for single-select mode
(none for the empty string) and selectedKeys for multi-select mode. -/
structure Selection where
  key : Option Int
  keys : List Int
deriving DecidableEq, Repr

/-- A change request emitted through props.onChange:
a new single value (null when cleared) or a new multi-select array. -/
inductive Notification where
  | singleChange (v : Option Int) : Notification
  | multiChange (vs : List Int) : Notification
deriving DecidableEq, Repr

/-- Result of running one reconciliation effect: the selection state after
the effect and the notification it emitted, if any. -/
structure EffectResult where
  sel : Selection
  notified : Option Notification
deriving DecidableEq, Repr

/-- The clear-on-unselected-parent effect (src: DependentChoice.tsx lines
73-90): when hasNoParentValue holds, clear a non-empty multi selection, or a
single selection that is neither "" nor "-1", notifying once. -/
def clearEffect (pv : ParentValue) (isMultiSelect : Bool) (sel : Selection) :
    EffectResult :=
  if hasNoParentValue pv then
    if isMultiSelect then
      if 0 < sel.keys.length then
        ⟨⟨sel.key, []⟩, some (Notification.multiChange [])⟩
      else ⟨sel, none⟩
    else
      match sel.key with
      | some k =>
        if !(k == -1) then ⟨⟨none, sel.keys⟩, some (Notification.singleChange none)⟩
        else ⟨sel, none⟩
      | none => ⟨sel, none⟩
  else ⟨sel, none⟩

/-- The allowed-value accumulation loop of the auto-remove effect (src: lines
109-115): union the dependent values of every selected parent that yields a
non-null lookup. This loop keeps no has-mappings flag: when no selected
parent is mapped the accumulated set is simply empty. -/
def autoRemoveLoop (cfg : Option DependencyConfiguration) :
    List Int → Finset Int → Finset Int
  | [], acc => acc
  | p :: rest, acc =>
    match getDependentValues cfg (some p) with
    | some vs => autoRemoveLoop cfg rest (vs.foldl (fun a v => insert v a) acc)
    | none => autoRemoveLoop cfg rest acc

/-- The auto-remove-invalid-selections effect (src: DependentChoice.tsx lines
93-141). Skips when the parentChoiceValue prop is falsy (so also for the
single value 0), or when the wrapped array is empty or starts with -1.
Otherwise multi mode filters the selected keys through the accumulated
allowed set, notifying when the length changed, and single mode clears a
selection other than "" and "-1" that is not in the allowed set. -/
def autoRemoveEffect (cfg : Option DependencyConfiguration) (pv : ParentValue)
    (isMultiSelect : Bool) (sel : Selection) : EffectResult :=
  if !parentTruthy pv then ⟨sel, none⟩
  else
    let parentValues := parentValuesList pv
    if parentValues.isEmpty || parentValues.head? == some (-1) then ⟨sel, none⟩
    else
      let allowedValues := autoRemoveLoop cfg parentValues ∅
      if isMultiSelect && !sel.keys.isEmpty then
        let validSelectedKeys := sel.keys.filter (fun k => decide (k ∈ allowedValues))
        if !(validSelectedKeys.length == sel.keys.length) then
          ⟨⟨sel.key, validSelectedKeys⟩, some (Notification.multiChange validSelectedKeys)⟩
        else ⟨sel, none⟩
      else if !isMultiSelect then
        match sel.key with
        | some k =>
          if !(k == -1) then
            if !(decide (k ∈ allowedValues)) then
              ⟨⟨none, sel.keys⟩, some (Notification.singleChange none)⟩
            else ⟨sel, none⟩
          else ⟨sel, none⟩
        | none => ⟨sel, none⟩
      else ⟨sel, none⟩

/-- Selection state with the notifications emitted by one reconciliation
pass (both effects, in their declaration order). -/
structure ReconcileResult where
  sel : Selection
  notifications : List Notification
deriving DecidableEq, Repr

/-- One reconciliation pass as React runs it on a parent-selection change:
the clear effect (lines 73-90) followed by the auto-remove effect (lines
93-141), collecting the notifications of both. -/
def reconcile (cfg : Option DependencyConfiguration) (pv : ParentValue)
    (isMultiSelect : Bool) (sel : Selection) : ReconcileResult :=
  let r1 := clearEffect pv isMultiSelect sel
  let r2 := autoRemoveEffect cfg pv isMultiSelect r1.sel
  ⟨r2.sel, r1.notified.toList ++ r2.notified.toList⟩

/-- One entry of the mapped option list (src: mappedOptions, lines 144-150):
the numeric value (used as key) and the IsHidden metadata flag; the display
label plays no role in filtering. -/
structure OptionItem where
  value : Int
  hidden : Bool
deriving DecidableEq, Repr

/-- The current-selection escape hatch of the display filter (src: lines
217-218): the option equals the single-select key (when non-empty), or is
among the multi-select keys. -/
def selectedMatches (isMultiSelect : Bool) (sel : Selection) (v : Int) : Bool :=
  (!isMultiSelect && (match sel.key with
                      | some k => k == v
                      | none => false)) ||
  (isMultiSelect && sel.keys.contains v)

/-- The allowed-value accumulation loop of the filteredOptions memo (src:
lines 188-199): like the auto-remove loop but also tracking whether any
selected parent produced a non-null lookup (the hasMappings flag). -/
def filterOptionsLoop (cfg : Option DependencyConfiguration) :
    List Int → Finset Int × Bool → Finset Int × Bool
  | [], st => st
  | p :: rest, (acc, flag) =>
    match getDependentValues cfg (some p) with
    | some vs => filterOptionsLoop cfg rest (vs.foldl (fun a v => insert v a) acc, true)
    | none => filterOptionsLoop cfg rest (acc, flag)

/-- The effective restriction computed inside filteredOptions (src: lines
188-208): none when no selected parent has a mapping (the fail-open branch
at line 205), otherwise the accumulated union. -/
def effectiveAllowed (cfg : Option DependencyConfiguration)
    (parents : List Int) : Option (Finset Int) :=
  let st := filterOptionsLoop cfg parents (∅, false)
  if st.2 then some st.1 else none

/-- The filteredOptions memo (src: DependentChoice.tsx lines 153-225). The
service argument is none when no mapping service exists, some state
otherwise. The three early returns hand back the full mapped option list
unfiltered; only the final branch applies the hidden flag and the
allowed-or-selected test. -/
def filteredOptions (svc : Option (Option DependencyConfiguration))
    (pv : ParentValue) (isMultiSelect : Bool) (sel : Selection)
    (opts : List OptionItem) : List OptionItem :=
  match svc with
  | none => opts
  | some cfg =>
    if hasNoParentValue pv then opts
    else
      let st := filterOptionsLoop cfg (parentValuesList pv) (∅, false)
      if !st.2 then opts
      else
        opts.filter (fun o =>
          !o.hidden &&
            (decide (o.value ∈ st.1) || selectedMatches isMultiSelect sel o.value))

/-- The whitespace characters recognised by the JS String.prototype.trim used
in validateInput: WhiteSpace (TAB, VT, FF, SP, NBSP, ZWNBSP, the Unicode
space separators) and LineTerminator (LF, CR, LS, PS). -/
def jsIsWhitespace (c : Char) : Bool :=
  c == ' ' || c == '\t' || c == '\n' || c == '\r' ||
  c == '\x0b' || c == '\x0c' || c == ' ' ||
  c == ' ' || (' ' ≤ c && c ≤ ' ') ||
  c == ' ' || c == ' ' || c == ' ' ||
  c == ' ' || c == '　' || c == '﻿'

/-- JS String.prototype.trim: drop whitespace from both ends. -/
def jsTrim (s : String) : String :=
  String.mk (((s.data.dropWhile jsIsWhitespace).reverse.dropWhile jsIsWhitespace).reverse)

/-- The result record of the strict validator (src: IValidationResult). -/
structure ValidationResult where
  isValid : Bool
  errors : List String
  configuration : Option DependencyConfiguration
deriving DecidableEq, Repr

/-- ConfigurationValidator.validateInput (src: lines 111-129): null or
undefined input, and input whose trim is empty, short-circuit to a valid
empty configuration; otherwise validation continues (none here). -/
def validateInputCheck (configJson : Option String) : Option ValidationResult :=
  match configJson with
  | none => some ⟨true, [], some ⟨[]⟩⟩
  | some s => if jsTrim s = "" then some ⟨true, [], some ⟨[]⟩⟩ else none

/-- ConfigurationValidator.validateRootStructure (src: lines 155-176): the
parsed value must be a non-null non-array object, must own a mappings
property (the `in` operator), and that property must be an array. Each
failing return carries exactly one message. -/
def validateRootStructure (parsed : Json) : Except String (List Json) :=
  match parsed with
  | Json.obj fields =>
    match fields.find? (fun f => f.1 == "mappings") with
    | none => Except.error "Configuration must have a \"mappings\" property"
    | some f =>
      match f.2 with
      | Json.arr ms => Except.ok ms
      | _ => Except.error "\"mappings\" must be an array"
  | _ => Except.error "Configuration must be a JSON object, not an array or primitive value"

/-- JS String() conversion of an element of a parsed JSON array, as used in
the not-a-number error message: null prints as "null" at top level but joins
as "" inside arrays; arrays join their elements with commas. -/
def jsArrayElemString : Json → String
  | Json.null => ""
  | Json.bool true => "true"
  | Json.bool false => "false"
  | Json.num n => toString n
  | Json.str s => s
  | Json.obj _ => "[object Object]"
  | Json.arr xs => String.intercalate "," (xs.attach.map (fun e => jsArrayElemString e.1))
decreasing_by
  have h := List.sizeOf_lt_of_mem e.2
  simp only [Json.arr.sizeOf_spec]
  omega

/-- JS String() conversion of a parsed JSON value. -/
def jsToString : Json → String
  | Json.null => "null"
  | Json.bool true => "true"
  | Json.bool false => "false"
  | Json.num n => toString n
  | Json.str s => s
  | Json.obj _ => "[object Object]"
  | Json.arr xs => String.intercalate "," (xs.map jsArrayElemString)

/-- ConfigurationValidator.validateParentValue (src: lines 259-285): the
property must exist, be a number (NaN cannot arise from parsed JSON), and not
duplicate an already accepted parent value; on success the value is added to
the seen set. Returns the accepted value, the errors, and the updated seen
set (the source mutates the set in place). -/
def validateParentValue (fields : List (String × Json)) (index : Nat)
    (seen : Finset Int) : Option Int × List String × Finset Int :=
  match fields.find? (fun f => f.1 == "parentValue") with
  | none =>
    (none, ["Mapping at index " ++ toString index ++ " is missing \"parentValue\" property"], seen)
  | some f =>
    match f.2 with
    | Json.num n =>
      if n ∈ seen then
        (none, ["Duplicate parentValue " ++ toString n ++ " found at index " ++ toString index], seen)
      else (some n, [], insert n seen)
    | _ =>
      (none, ["Mapping at index " ++ toString index ++ " has invalid \"parentValue\": must be a number"], seen)

/-- ConfigurationValidator.validateDependentValuesElements (src: lines
333-350): walk the array, collecting numeric elements and an error for each
non-numeric one. Returns the collected numbers and the errors. -/
def validateDependentValuesElements (elems : List Json) (index : Nat) (j : Nat) :
    List Int × List String :=
  match elems with
  | [] => ([], [])
  | e :: rest =>
    let r := validateDependentValuesElements rest index (j + 1)
    match e with
    | Json.num n => (n :: r.1, r.2)
    | _ =>
      (r.1,
        ("Mapping at index " ++ toString index ++ ", dependentValues[" ++ toString j ++
          "]: \"" ++ jsToString e ++ "\" is not a number") :: r.2)

/-- ConfigurationValidator.findDuplicates (src: lines 374-376): the elements
standing at a position different from their first occurrence. -/
def findDuplicates (values : List Int) : List Int :=
  (values.enum.filter (fun p => values.indexOf p.2 ≠ p.1)).map (fun p => p.2)

/-- ConfigurationValidator.checkDuplicateDependentValues (src: lines
359-366): compare the distinct-value count with the length. -/
def checkDuplicateDependentValues (dependentValues : List Int) (index : Nat) :
    List String :=
  if dependentValues.dedup.length ≠ dependentValues.length then
    ["Mapping at index " ++ toString index ++ " has duplicate dependentValues: [" ++
      String.intercalate ", " ((findDuplicates dependentValues).map toString) ++ "]"]
  else []

/-- ConfigurationValidator.validateDependentValues (src: lines 294-323): the
property must exist and be an array; any non-numeric element drops the whole
mapping; duplicates produce an error but the value list is still returned
(so the mapping is constructed even though the overall result fails). -/
def validateDependentValues (fields : List (String × Json)) (index : Nat) :
    Option (List Int) × List String :=
  match fields.find? (fun f => f.1 == "dependentValues") with
  | none =>
    (none, ["Mapping at index " ++ toString index ++ " is missing \"dependentValues\" property"])
  | some f =>
    match f.2 with
    | Json.arr elems =>
      let r := validateDependentValuesElements elems index 0
      if r.2 ≠ [] then (none, r.2)
      else (some r.1, checkDuplicateDependentValues r.1 index)
    | _ =>
      (none, ["Mapping at index " ++ toString index ++ " has invalid \"dependentValues\": must be an array"])

/-- ConfigurationValidator.validateSingleMapping (src: lines 212-249): the
element must be a non-null non-array object; then the parentValue checks run,
and only if they produced a value do the dependentValues checks run; the
mapping is produced when both parts yielded values. The updated seen set is
threaded through. -/
def validateSingleMapping (mapping : Json) (index : Nat) (seen : Finset Int) :
    Option DependencyMapping × List String × Finset Int :=
  match mapping with
  | Json.obj fields =>
    let pv := validateParentValue fields index seen
    match pv.1 with
    | none => (none, pv.2.1, pv.2.2)
    | some p =>
      let dv := validateDependentValues fields index
      match dv.1 with
      | none => (none, pv.2.1 ++ dv.2, pv.2.2)
      | some ds => (some ⟨p, ds⟩, pv.2.1 ++ dv.2, pv.2.2)
  | _ => (none, ["Mapping at index " ++ toString index ++ " must be an object"], seen)

/-- The loop of ConfigurationValidator.validateMappings (src: lines 184-202):
every element is validated in turn at its index, errors are appended in
order, surviving mappings are collected in order, and the seen set is
threaded from element to element. -/
def validateMappingsLoop (ms : List Json) (i : Nat) (seen : Finset Int) :
    List DependencyMapping × List String × Finset Int :=
  match ms with
  | [] => ([], [], seen)
  | m :: rest =>
    let r := validateSingleMapping m i seen
    let rr := validateMappingsLoop rest (i + 1) r.2.2
    ((match r.1 with
      | some mp => mp :: rr.1
      | none => rr.1), r.2.1 ++ rr.2.1, rr.2.2)

/-- ConfigurationValidator.validateMappings (src: lines 184-202). -/
def validateMappings (ms : List Json) : List DependencyMapping × List String :=
  ((validateMappingsLoop ms 0 ∅).1, (validateMappingsLoop ms 0 ∅).2.1)

/-- ConfigurationValidator.validate (src: lines 78-103). Raw text enters as
Option String (none for null or undefined); the outcome of JSON.parse on
that text is the parsed argument (error = the message of the caught parse
exception, wrapped by parseJson into the single "Invalid JSON format" error). -/
def validate (configJson : Option String) (parsed : Except String Json) :
    ValidationResult :=
  match validateInputCheck configJson with
  | some r => r
  | none =>
    match parsed with
    | Except.error msg => ⟨false, ["Invalid JSON format: " ++ msg], none⟩
    | Except.ok p =>
      match validateRootStructure p with
      | Except.error e => ⟨false, [e], none⟩
      | Except.ok ms =>
        let res := validateMappings ms
        if res.2 = [] then ⟨true, [], some ⟨res.1⟩⟩ else ⟨false, res.2, none⟩

/-- The allowed set one selected parent contributes: its dependent-value set
when a mapping applies, nothing otherwise. -/
def allowedSetOf (cfg : Option DependencyConfiguration) (p : Int) : Finset Int :=
  ((getDependentValues cfg (some p)).getD []).toFinset

/-- Union of the per-parent allowed sets over a list of selected parents. -/
def unionAllowed (cfg : Option DependencyConfiguration) (parents : List Int) :
    Finset Int :=
  parents.foldr (fun p acc => allowedSetOf cfg p ∪ acc) ∅

/-- Spec-side restatement of the multi-parent aggregation policy, for
comparison with the loop of the source: the effective allowed set is the
union of getDependentValues over exactly those selected parents whose lookup
is non-absent; when no selected parent has a mapping, the fail-open default
(none, allow all) applies. -/
def specEffectiveAllowed (cfg : Option DependencyConfiguration)
    (parents : List Int) : Option (Finset Int) :=
  let mapped := parents.filter (fun p => (getDependentValues cfg (some p)).isSome)
  if mapped.isEmpty then none else some (unionAllowed cfg mapped)

/-- Spec-side restatement of the display filtering policy, amended to what
the source does: when an effective restriction exists, an option is shown iff
it is not flagged hidden and is allowed or currently selected; in every
fail-open case (no mapping service, no or sentinel parent selection, or no
selected parent mapped) the full option list is shown unfiltered. -/
def specDisplayed (svc : Option (Option DependencyConfiguration))
    (pv : ParentValue) (isMultiSelect : Bool) (sel : Selection)
    (opts : List OptionItem) : List OptionItem :=
  match svc with
  | none => opts
  | some cfg =>
    if hasNoParentValue pv then opts
    else
      match specEffectiveAllowed cfg (parentValuesList pv) with
      | none => opts
      | some allowed =>
        opts.filter (fun o =>
          !o.hidden &&
            (decide (o.value ∈ allowed) || selectedMatches isMultiSelect sel o.value))

theorem foldl_insert_eq_union (vs : List Int) (acc : Finset Int) :
    vs.foldl (fun a v => insert v a) acc = acc ∪ vs.toFinset := by
  induction vs generalizing acc with
  | nil => simp
  | cons v vs ih =>
    simp only [List.foldl_cons, ih, List.toFinset_cons]
    ext x
    simp only [Finset.mem_union, Finset.mem_insert]
    tauto

theorem unionAllowed_cons (cfg : Option DependencyConfiguration)
    (p : Int) (ps : List Int) :
    unionAllowed cfg (p :: ps) = allowedSetOf cfg p ∪ unionAllowed cfg ps := rfl

theorem autoRemoveLoop_eq (cfg : Option DependencyConfiguration)
    (ps : List Int) (acc : Finset Int) :
    autoRemoveLoop cfg ps acc = acc ∪ unionAllowed cfg ps := by
  induction ps generalizing acc with
  | nil => simp [autoRemoveLoop, unionAllowed]
  | cons p ps ih =>
    rw [unionAllowed_cons]
    cases h : getDependentValues cfg (some p) with
    | none =>
      simp only [autoRemoveLoop, h]
      rw [ih]
      simp [allowedSetOf, h]
    | some vs =>
      simp only [autoRemoveLoop, h]
      rw [foldl_insert_eq_union, ih]
      simp [allowedSetOf, h, Finset.union_assoc]

theorem filterOptionsLoop_eq (cfg : Option DependencyConfiguration)
    (ps : List Int) (acc : Finset Int) (flag : Bool) :
    filterOptionsLoop cfg ps (acc, flag) =
      (acc ∪ unionAllowed cfg ps,
        flag || ps.any (fun p => (getDependentValues cfg (some p)).isSome)) := by
  induction ps generalizing acc flag with
  | nil => simp [filterOptionsLoop, unionAllowed]
  | cons p ps ih =>
    rw [unionAllowed_cons]
    cases h : getDependentValues cfg (some p) with
    | none =>
      simp only [filterOptionsLoop, h, List.any_cons]
      rw [ih]
      simp [allowedSetOf, h]
    | some vs =>
      simp only [filterOptionsLoop, h, List.any_cons]
      rw [foldl_insert_eq_union, ih]
      simp [allowedSetOf, h, Finset.union_assoc]

theorem unionAllowed_filter_mapped (cfg : Option DependencyConfiguration)
    (ps : List Int) :
    unionAllowed cfg (ps.filter (fun p => (getDependentValues cfg (some p)).isSome)) =
      unionAllowed cfg ps := by
  induction ps with
  | nil => rfl
  | cons p ps ih =>
    rw [List.filter_cons]
    cases h : getDependentValues cfg (some p) with
    | none =>
      simp only [h, Option.isSome_none]
      rw [if_neg (by simp), ih, unionAllowed_cons]
      simp [allowedSetOf, h]
    | some vs =>
      simp only [h, Option.isSome_some]
      rw [if_pos (by simp), unionAllowed_cons, unionAllowed_cons, ih]

theorem effectiveAllowed_eq_spec (cfg : Option DependencyConfiguration)
    (ps : List Int) :
    effectiveAllowed cfg ps = specEffectiveAllowed cfg ps := by
  simp only [effectiveAllowed, specEffectiveAllowed, filterOptionsLoop_eq]
  rw [← unionAllowed_filter_mapped cfg ps]
  by_cases h : ps.any (fun p => (getDependentValues cfg (some p)).isSome)
  · have hne : ¬ (ps.filter (fun p => (getDependentValues cfg (some p)).isSome)).isEmpty := by
      simp only [List.any_eq_true] at h
      obtain ⟨x, hx, hmem⟩ := h
      simp only [List.isEmpty_iff, List.filter_eq_nil_iff]
      intro hall
      exact absurd hmem (by simpa using hall x hx)
    simp [h, hne]
  · have he : (ps.filter (fun p => (getDependentValues cfg (some p)).isSome)).isEmpty := by
      simp only [List.any_eq_true] at h
      push_neg at h
      simp only [List.isEmpty_iff, List.filter_eq_nil_iff]
      intro a ha
      simpa using h a ha
    simp [h, he]

/-- C1: getDependentValues returns absent (no restriction) when no
configuration is loaded, when the parent value is absent, or when it is the
sentinel -1; otherwise it looks the parent value up among the loaded mappings
by exact equality, returning none when no mapping matches (fail-open) and the
first matching mapping's dependent-value set when one does (which may be the
empty set, still a some and hence distinguishable from the unmapped case). -/
theorem c1_getDependentValues_characterization :
    (∀ p, getDependentValues none p = none) ∧
    (∀ cfg, getDependentValues cfg none = none) ∧
    (∀ cfg, getDependentValues cfg (some (-1)) = none) ∧
    (∀ (cfg : DependencyConfiguration) (p : Int), p ≠ -1 →
      (∀ m ∈ cfg.mappings, m.parentValue ≠ p) →
      getDependentValues (some cfg) (some p) = none) ∧
    (∀ (cfg : DependencyConfiguration) (p : Int) (m : DependencyMapping), p ≠ -1 →
      cfg.mappings.find? (fun mm => mm.parentValue == p) = some m →
      getDependentValues (some cfg) (some p) = some m.dependentValues) := by
  refine ⟨fun p => rfl, fun cfg => ?_, fun cfg => ?_,
    fun cfg p hp hall => ?_, fun cfg p m hp hf => ?_⟩
  · cases cfg <;> rfl
  · cases cfg <;> simp [getDependentValues]
  · have hnone : cfg.mappings.find? (fun mm => mm.parentValue == p) = none := by
      rw [List.find?_eq_none]
      intro m hm
      simpa using hall m hm
    simp [getDependentValues, hp, hnone]
  · simp [getDependentValues, hp, hf]

theorem c1_witness :
    getDependentValues (some ⟨[⟨1, []⟩, ⟨2, [200, 201]⟩]⟩) (some 3) = none ∧
    getDependentValues (some ⟨[⟨1, []⟩, ⟨2, [200, 201]⟩]⟩) (some 1) = some [] ∧
    some ([] : List Int) ≠ (none : Option (List Int)) :=
  ⟨c1_getDependentValues_characterization.2.2.2.1 ⟨[⟨1, []⟩, ⟨2, [200, 201]⟩]⟩ 3
      (by decide) (by decide),
   c1_getDependentValues_characterization.2.2.2.2 ⟨[⟨1, []⟩, ⟨2, [200, 201]⟩]⟩ 1 ⟨1, []⟩
      (by decide) (by decide),
   by decide⟩

/-- C2: refuted on the code. The permissive loader itself never raises (it
catches the parse error and stores whatever JSON.parse produced), but a
parseable non-conforming configuration such as the raw text of an empty
object is stored as-is, and the very next getDependentValues call with a
real parent value dereferences undefined.mappings.find and throws a
TypeError instead of returning the fail-open null the claim (and the spec)
promise. -/
theorem c2_lookup_throws_on_nonconforming_config :
    initMappingService none (RawConfigText.parsedAs (Json.obj [])) = some (Json.obj []) ∧
    getDependentValuesJs (some (Json.obj [])) (some 1) =
      Except.error "TypeError: Cannot read properties of undefined (reading find)" :=
  ⟨rfl, rfl⟩

/-- C3: refuted on the code, two ways. First: with mappings 1 to [100, 101]
and the parent selection moving to the unmapped parent 2, the resolver's own
isAllowed says the current dependent selection 100 is allowed (fail-open),
yet the auto-remove effect computes its allowed set without any fail-open
default (its loop keeps no hasMappings flag), finds 100 outside the empty
set, clears the selection and notifies. Second: the claim includes the
parent value 0, but the effect's falsy guard on the parentChoiceValue prop
skips reconciliation entirely for a single parent value 0 even though the
component's own hasNoParentValue check treats 0 as a real selection: with
mapping 0 to the empty set and dependent selection 5 the claim requires a
clear, and the code does nothing. -/
theorem c3_auto_remove_contradicts_resolver :
    isAllowed (some ⟨[⟨1, [100, 101]⟩]⟩) (some 2) 100 = true ∧
    autoRemoveEffect (some ⟨[⟨1, [100, 101]⟩]⟩) (ParentValue.single 2) false ⟨some 100, []⟩ =
      ⟨⟨none, []⟩, some (Notification.singleChange none)⟩ ∧
    hasNoParentValue (ParentValue.single 0) = false ∧
    autoRemoveEffect (some ⟨[⟨0, []⟩]⟩) (ParentValue.single 0) false ⟨some 5, []⟩ =
      ⟨⟨some 5, []⟩, none⟩ := by
  refine ⟨rfl, ?_, rfl, ?_⟩ <;> decide

/-- C4: the effective allowed set computed by filteredOptions for a selected
parent list equals the union of getDependentValues over exactly the selected
parents whose lookup is non-absent, with the fail-open default (none) when no
selected parent has a mapping. -/
theorem c4_multi_parent_union (cfg : Option DependencyConfiguration)
    (parents : List Int) (_hne : parents ≠ []) :
    effectiveAllowed cfg parents = specEffectiveAllowed cfg parents :=
  effectiveAllowed_eq_spec cfg parents

theorem c4_witness :
    effectiveAllowed (some ⟨[⟨1, [10, 11]⟩, ⟨2, [20]⟩]⟩) [1, 2] =
      specEffectiveAllowed (some ⟨[⟨1, [10, 11]⟩, ⟨2, [20]⟩]⟩) [1, 2] ∧
    ((effectiveAllowed (some ⟨[⟨1, [10, 11]⟩, ⟨2, [20]⟩]⟩) [1, 2]).getD ∅).card = 3 ∧
    (10 : Int) ∈ (effectiveAllowed (some ⟨[⟨1, [10, 11]⟩, ⟨2, [20]⟩]⟩) [1, 2]).getD ∅ ∧
    (11 : Int) ∈ (effectiveAllowed (some ⟨[⟨1, [10, 11]⟩, ⟨2, [20]⟩]⟩) [1, 2]).getD ∅ ∧
    (20 : Int) ∈ (effectiveAllowed (some ⟨[⟨1, [10, 11]⟩, ⟨2, [20]⟩]⟩) [1, 2]).getD ∅ ∧
    (effectiveAllowed (some ⟨[⟨1, [10, 11]⟩, ⟨2, [20]⟩]⟩) [1, 3]).isSome = true ∧
    ((effectiveAllowed (some ⟨[⟨1, [10, 11]⟩, ⟨2, [20]⟩]⟩) [1, 3]).getD ∅).card = 2 ∧
    (10 : Int) ∈ (effectiveAllowed (some ⟨[⟨1, [10, 11]⟩, ⟨2, [20]⟩]⟩) [1, 3]).getD ∅ ∧
    (11 : Int) ∈ (effectiveAllowed (some ⟨[⟨1, [10, 11]⟩, ⟨2, [20]⟩]⟩) [1, 3]).getD ∅ :=
  ⟨c4_multi_parent_union (some ⟨[⟨1, [10, 11]⟩, ⟨2, [20]⟩]⟩) [1, 2] (by decide),
   by decide, by decide, by decide, by decide, by decide, by decide, by decide, by decide⟩

/-- C5 (amended): when an effective restriction applies (some selected parent
is mapped), an option appears in the filtered list iff it is not flagged
hidden and is allowed or currently selected; in every fail-open branch (no
mapping service, no or sentinel parent selection, or no selected parent
mapped) the full option list is returned unfiltered, hidden flags included. -/
theorem c5_display_filter_characterization
    (svc : Option (Option DependencyConfiguration)) (pv : ParentValue)
    (isMultiSelect : Bool) (sel : Selection) (opts : List OptionItem) :
    filteredOptions svc pv isMultiSelect sel opts =
      specDisplayed svc pv isMultiSelect sel opts := by
  cases svc with
  | none => rfl
  | some cfg =>
    simp only [filteredOptions, specDisplayed]
    by_cases hnp : hasNoParentValue pv = true
    · simp [hnp]
    · rw [← effectiveAllowed_eq_spec]
      simp only [effectiveAllowed, filterOptionsLoop_eq, Finset.empty_union, Bool.false_or]
      by_cases hm : (parentValuesList pv).any
          (fun p => (getDependentValues cfg (some p)).isSome) = true
      · simp [hnp, hm]
      · simp [hnp, hm]

/-- C5 counterexample: the claim says a hidden-flagged option never appears,
in fail-open cases included; but with a loaded configuration mapping only
parent 1 and the parent selection on the unmapped parent 2 (a fail-open
case), the code returns the full option list, hidden option included. -/
theorem c5_counterexample :
    filteredOptions (some (some ⟨[⟨1, [100]⟩]⟩)) (ParentValue.single 2) false
      ⟨none, []⟩ [⟨5, true⟩] = [⟨5, true⟩] ∧
    (⟨5, true⟩ : OptionItem).hidden = true := by
  refine ⟨?_, rfl⟩
  decide

/-- C10: when the permissively loaded configuration holds several mappings
with the same parentValue, getDependentValues returns the dependent values of
the first one in input order (List.find? semantics of Array.prototype.find),
whatever comes after it. -/
theorem c10_first_match_wins (pre post : List DependencyMapping)
    (ds : List Int) (v : Int) (hv : v ≠ -1)
    (hpre : ∀ m ∈ pre, m.parentValue ≠ v) :
    getDependentValues (some ⟨pre ++ ⟨v, ds⟩ :: post⟩) (some v) = some ds := by
  have key : (pre ++ (⟨v, ds⟩ : DependencyMapping) :: post).find?
      (fun m => m.parentValue == v) = some ⟨v, ds⟩ := by
    induction pre with
    | nil =>
      rw [List.nil_append, List.find?_cons_of_pos]
      simp
    | cons m pre ih =>
      rw [List.cons_append, List.find?_cons_of_neg]
      · exact ih (fun x hx => hpre x (List.mem_cons_of_mem m hx))
      · simpa using hpre m (List.mem_cons_self m pre)
  simp [getDependentValues, hv, key]

theorem c10_witness :
    getDependentValues (some ⟨[⟨1, [10]⟩, ⟨1, [20]⟩]⟩) (some 1) = some [10] :=
  c10_first_match_wins [] [⟨1, [20]⟩] [10] 1 (by decide) (by simp)

/-- C6: for every input (absent, null via none, or any string, with any
JSON.parse outcome) the validator returns a result (the embedding is total
because every operation the source performs on unparsed values is a
non-throwing type inspection, and the one throwing operation, JSON.parse, is
caught and enters as the parsed argument), and the result satisfies: the
error list is empty iff isValid, and the configuration is present iff
isValid. -/
theorem c6_validation_result_invariants (configJson : Option String)
    (parsed : Except String Json) :
    ((validate configJson parsed).errors = [] ↔
      (validate configJson parsed).isValid = true) ∧
    ((validate configJson parsed).configuration.isSome = true ↔
      (validate configJson parsed).isValid = true) := by
  unfold validate
  cases configJson with
  | none => simp [validateInputCheck]
  | some s =>
    simp only [validateInputCheck]
    by_cases ht : jsTrim s = ""
    · simp [ht]
    · simp only [ht, if_false]
      cases parsed with
      | error msg => simp
      | ok p =>
        cases hr : validateRootStructure p with
        | error e => simp [hr]
        | ok ms =>
          simp only [hr]
          by_cases he : (validateMappings ms).2 = []
          · simp [he]
          · simp [he]

/-- C7: element validation is compositional: validating a concatenation of
mapping lists validates every element of both parts at its own index (the
seen set threaded through), appends all error messages in element order, and
appends the surviving mappings in element order — so a failing element never
stops validation of the ones after it and all structural errors are returned
together. The closed conjunct shows two failing elements both reported in
one pass. -/
theorem c7_errors_collected_across_elements :
    (∀ (ms1 ms2 : List Json) (i : Nat) (seen : Finset Int),
      validateMappingsLoop (ms1 ++ ms2) i seen =
        ((validateMappingsLoop ms1 i seen).1 ++
            (validateMappingsLoop ms2 (i + ms1.length)
              (validateMappingsLoop ms1 i seen).2.2).1,
          (validateMappingsLoop ms1 i seen).2.1 ++
            (validateMappingsLoop ms2 (i + ms1.length)
              (validateMappingsLoop ms1 i seen).2.2).2.1,
          (validateMappingsLoop ms2 (i + ms1.length)
            (validateMappingsLoop ms1 i seen).2.2).2.2)) ∧
    validateMappings [Json.num 1, Json.null] =
      ([], ["Mapping at index 0 must be an object",
            "Mapping at index 1 must be an object"]) := by
  constructor
  · intro ms1 ms2 i seen
    induction ms1 generalizing i seen with
    | nil => simp [validateMappingsLoop]
    | cons m ms1 ih =>
      simp only [List.cons_append, validateMappingsLoop, List.length_cons, List.append_eq]
      rw [ih]
      have harith : i + (ms1.length + 1) = i + 1 + ms1.length := by omega
      rw [harith]
      cases (validateSingleMapping m i seen).1 <;>
        simp [List.append_assoc]
  · decide

/-- C8: absent or null input, and input that is empty or all-whitespace,
yield a valid result with no errors and a present configuration holding zero
mappings — never an invalid result. -/
theorem c8_blank_input (s : String) (parsed : Except String Json) :
    validate none parsed = ⟨true, [], some ⟨[]⟩⟩ ∧
    (s.data.all jsIsWhitespace = true →
      validate (some s) parsed = ⟨true, [], some ⟨[]⟩⟩) := by
  refine ⟨rfl, fun hws => ?_⟩
  have h1 : s.data.dropWhile jsIsWhitespace = [] := by
    rw [List.dropWhile_eq_nil_iff]
    intro x hx
    exact List.all_eq_true.mp hws x hx
  have ht : jsTrim s = "" := by
    simp [jsTrim, h1]
  simp [validate, validateInputCheck, ht]

theorem c8_witness :
    validate (some "  \t ") (Except.ok Json.null) = ⟨true, [], some ⟨[]⟩⟩ :=
  (c8_blank_input "  \t " (Except.ok Json.null)).2 (by decide)

theorem list_filter_idem (p : Int → Bool) (l : List Int) :
    (l.filter p).filter p = l.filter p := by
  simp [List.filter_filter]

theorem clearEffect_skip (pv : ParentValue) (m : Bool) (sel : Selection)
    (h : hasNoParentValue pv = false) : clearEffect pv m sel = ⟨sel, none⟩ := by
  simp [clearEffect, h]

theorem autoRemoveEffect_skip (cfg : Option DependencyConfiguration)
    (pv : ParentValue) (m : Bool) (sel : Selection)
    (h : hasNoParentValue pv = true) : autoRemoveEffect cfg pv m sel = ⟨sel, none⟩ := by
  cases pv with
  | nullish => simp [autoRemoveEffect, parentTruthy]
  | single n =>
    have hn : n = -1 := by simpa [hasNoParentValue] using h
    subst hn
    simp [autoRemoveEffect, parentTruthy, parentValuesList]
  | multi ns =>
    have hns : ns = [] := by simpa [hasNoParentValue] using h
    subst hns
    simp [autoRemoveEffect, parentTruthy, parentValuesList]

theorem clearEffect_idem (pv : ParentValue) (m : Bool) (sel : Selection) :
    clearEffect pv m (clearEffect pv m sel).sel = ⟨(clearEffect pv m sel).sel, none⟩ := by
  by_cases h : hasNoParentValue pv = true
  · cases m with
    | false =>
      cases hk : sel.key with
      | none => simp [clearEffect, h, hk]
      | some k =>
        by_cases hk1 : (k == -1) = true
        · simp [clearEffect, h, hk, hk1]
        · simp [clearEffect, h, hk, hk1]
    | true =>
      cases hkeys : sel.keys with
      | nil => simp [clearEffect, h, hkeys]
      | cons a as => simp [clearEffect, h, hkeys]
  · have hf : hasNoParentValue pv = false := by simpa using h
    simp [clearEffect, hf]

theorem autoRemoveEffect_idem (cfg : Option DependencyConfiguration)
    (pv : ParentValue) (m : Bool) (sel : Selection) :
    autoRemoveEffect cfg pv m (autoRemoveEffect cfg pv m sel).sel =
      ⟨(autoRemoveEffect cfg pv m sel).sel, none⟩ := by
  by_cases h1 : parentTruthy pv = true
  case neg =>
    have hb : parentTruthy pv = false := by simpa using h1
    simp [autoRemoveEffect, hb]
  by_cases h2 : ((parentValuesList pv).isEmpty ||
      (parentValuesList pv).head? == some (-1)) = true
  · simp [autoRemoveEffect, h1, h2]
  · have hb2 : ((parentValuesList pv).isEmpty ||
        (parentValuesList pv).head? == some (-1)) = false := by simpa using h2
    cases m with
    | true =>
      cases hkeys : sel.keys with
      | nil => simp [autoRemoveEffect, h1, hb2, hkeys]
      | cons a as =>
        by_cases hlen : ((a :: as).filter
            (fun k => decide (k ∈ autoRemoveLoop cfg (parentValuesList pv) ∅))).length =
              (a :: as).length
        · simp only [List.length_cons] at hlen
          simp [autoRemoveEffect, h1, hb2, hkeys, hlen]
        · have hlen2 : ((a :: as).filter
              (fun k => decide (k ∈ autoRemoveLoop cfg (parentValuesList pv) ∅))).length ≠
                as.length + 1 := by
            simpa [List.length_cons] using hlen
          cases hres : (a :: as).filter
              (fun k => decide (k ∈ autoRemoveLoop cfg (parentValuesList pv) ∅)) with
          | nil => simp [autoRemoveEffect, h1, hb2, hkeys, hlen2, hres]
          | cons b bs =>
            have hidem := list_filter_idem
              (fun k => decide (k ∈ autoRemoveLoop cfg (parentValuesList pv) ∅)) (a :: as)
            rw [hres] at hidem
            have hbs : bs.length ≠ as.length := by
              rw [hres] at hlen2
              simpa using hlen2
            simp [autoRemoveEffect, h1, hb2, hkeys, hlen2, hres, hidem, hbs]
    | false =>
      cases hk : sel.key with
      | none => simp [autoRemoveEffect, h1, hb2, hk]
      | some k =>
        by_cases hk1 : k = -1
        · simp [autoRemoveEffect, h1, hb2, hk, hk1]
        · by_cases hmem : k ∈ autoRemoveLoop cfg (parentValuesList pv) ∅
          · simp [autoRemoveEffect, h1, hb2, hk, hk1, hmem]
          · simp [autoRemoveEffect, h1, hb2, hk, hk1, hmem]

/-- C9: re-initializing the resolver with identical input yields identical
state (initialize replaces state wholesale and depends only on its input),
and one reconciliation pass (the clear effect followed by the auto-remove
effect) applied a second time with the same parent selection and
configuration leaves the selection unchanged and emits no further
notification; in particular clearing an already-empty selection is a no-op. -/
theorem c9_idempotence :
    (∀ (st : Option Json) (raw : RawConfigText),
      initMappingService (initMappingService st raw) raw = initMappingService st raw) ∧
    (∀ (cfg : Option DependencyConfiguration) (pv : ParentValue) (m : Bool)
        (sel : Selection),
      reconcile cfg pv m (reconcile cfg pv m sel).sel =
        ⟨(reconcile cfg pv m sel).sel, []⟩) := by
  constructor
  · intro st raw
    cases raw with
    | falsy => rfl
    | invalidJson => rfl
    | parsedAs v => cases v <;> rfl
  · intro cfg pv m sel
    by_cases h : hasNoParentValue pv = true
    · simp [reconcile, autoRemoveEffect_skip, clearEffect_idem, h]
    · have hf : hasNoParentValue pv = false := by simpa using h
      simp [reconcile, clearEffect_skip, autoRemoveEffect_idem, hf]
